import Mathlib

/-!
# Verification of the calcium-imaging signal-processing core

Shallow embedding of `src/utils/signal_processing.py` (class `SignalProcessor`
and the module-level functions).  Machine floats are modelled as exact
rationals (`ℚ`); numpy arrays as Lean lists; numpy slicing and slice
assignment are modelled by `pySlice` / `pySetRange` with Python's clamping
semantics.  All definitions are executable.
-/

set_option maxRecDepth 10000

/-- Clamped start/stop pair of a Python slice `l[a:b]` (step 1) over a list of
length `n`: negative indices count from the end, and both bounds are clamped
to `[0, n]`. -/
def pySliceBounds (n : ℕ) (a b : Int) : ℕ × ℕ :=
  let conv : Int → ℕ := fun idx => if idx < 0 then ((n : Int) + idx).toNat else min idx.toNat n
  (conv a, conv b)

/-- Python slice `l[a:b]` (step 1). -/
def pySlice {α : Type} (l : List α) (a b : Int) : List α :=
  let p := pySliceBounds l.length a b
  (l.drop p.1).take (p.2 - p.1)

/-- Python slice assignment `l[a:b] = v` (broadcasting the scalar `v`). -/
def pySetRange {α : Type} (l : List α) (a b : Int) (v : α) : List α :=
  let p := pySliceBounds l.length a b
  (List.range' p.1 (p.2 - p.1)).foldl (fun acc j => acc.set j v) l

/-- Python `l[-n:]` for `n ≥ 1`: the most recent `n` entries. -/
def takeLast {α : Type} (n : ℕ) (l : List α) : List α :=
  l.drop (l.length - n)

/-- `np.nanmedian` on a NaN-free array: middle element of the sorted list, or
the mean of the two middle elements for even length (junk value 0 on the empty
list, which the detector only hits for `w = 0`). -/
def median (l : List ℚ) : ℚ :=
  let s := List.insertionSort (· ≤ ·) l
  let n := s.length
  if n % 2 = 1 then s.getD (n / 2) 0 else (s.getD (n / 2 - 1) 0 + s.getD (n / 2) 0) / 2

/-- Python `int(q)`: truncation toward zero. -/
def pyTrunc (q : ℚ) : Int := Int.tdiv q.num (q.den : Int)

/-- `scipy.integrate.trapezoid y t`: ∑ (t₁−t₀)·(y₀+y₁)/2 over consecutive
pairs; 0 on sequences shorter than two samples. -/
def trapezoid : List ℚ → List ℚ → ℚ
  | y0 :: y1 :: ys, t0 :: t1 :: ts => (t1 - t0) * (y0 + y1) / 2 + trapezoid (y1 :: ys) (t1 :: ts)
  | _, _ => 0

/-- `np.linspace a b n`. -/
def linspace (a b : ℚ) (n : ℕ) : List ℚ :=
  (List.range n).map fun (i : ℕ) =>
    if n ≤ 1 then a else a + (i : ℚ) * (b - a) / ((n : ℚ) - 1)

/-- `np.max` of a nonempty list (junk value 0 on the empty list). -/
def listMax : List ℚ → ℚ
  | [] => 0
  | h :: t => t.foldl max h

/-! ## The adaptive event detector (`SignalProcessor`) -/

/-- Run-merge step of the detection loop (lines 150–154, identical at
219–223): once `i > w + run_min`, if the current sample is UP and the count of
UP among `event_mask[i-run_min:i-1]` strictly exceeds `0.8 * run_min`,
backfill `event_mask[i-run_min:i]` with UP; symmetric for DOWN. -/
def runMerge (w run_min : ℕ) (m : List Int) (i : ℕ) : List Int :=
  if i > w + run_min then
    if m.getD i 0 = 1 ∧
        (((pySlice m ((i : Int) - run_min) ((i : Int) - 1)).count 1 : ℚ) > 8/10 * run_min) then
      pySetRange m ((i : Int) - run_min) (i : Int) 1
    else if m.getD i 0 = -1 ∧
        (((pySlice m ((i : Int) - run_min) ((i : Int) - 1)).count (-1) : ℚ) > 8/10 * run_min) then
      pySetRange m ((i : Int) - run_min) (i : Int) (-1)
    else m
  else m

/-- Mutable state of the detection loop: classification array, rolling buffer
`x_filtered`, and the current baseline / robust deviation. -/
structure DetectState where
  mask : List Int
  xf : List ℚ
  baseline : ℚ
  std_dev : ℚ

/-- One iteration `i` of the detection loop of `_detect_events_with_params`
(lines 136–159): hysteresis classification, influence-damped buffer append,
run-merge, buffer trim, and baseline/deviation recomputation. -/
def detectStep (x : List ℚ) (w : ℕ) (k_up k_down influence : ℚ) (run_min : ℕ)
    (s : DetectState) (i : ℕ) : DetectState :=
  let xi := x.getD i 0
  let difference := xi - s.baseline
  let prev := s.mask.getD (i - 1) 0
  let damped := influence * xi + (1 - influence) * s.xf.getLastD 0
  let vApp : Int × ℚ :=
    if (difference > k_up * s.std_dev ∧ difference > 0) ∨ (difference > 0 ∧ prev = 1) then
      (1, damped)
    else if (difference < -k_down * s.std_dev ∧ difference < 0) ∨ (difference < 0 ∧ prev = -1) then
      (-1, damped)
    else (0, xi)
  let mask1 := s.mask.set i vApp.1
  let xf1 := s.xf ++ [vApp.2]
  let mask2 := runMerge w run_min mask1 i
  let xf2 := takeLast w xf1
  let b := median xf2
  let mad := median (xf2.map fun t => |t - b|)
  ⟨mask2, xf2, b, 14826/10000 * mad⟩

/-- Initial detector state (lines 127–133): zero mask, buffer = first `w`
samples, baseline = median, deviation = MAD / 0.6745. -/
def detectInit (x : List ℚ) (w : ℕ) : DetectState :=
  let xf := x.take w
  let b := median xf
  ⟨List.replicate x.length 0, xf, b, median (xf.map fun t => |t - b|) / (6745/10000)⟩

/-- The detection loop `for i in range(w, N)`. -/
def detectLoop (x : List ℚ) (w : ℕ) (k_up k_down influence : ℚ) (run_min : ℕ) : DetectState :=
  (List.range' w (x.length - w)).foldl (detectStep x w k_up k_down influence run_min)
    (detectInit x w)

/-- Refinement condition for UP (line 167): at least 80 % of the five
preceding samples `x[i-5:i]` are ≤ `x[i]`. -/
def refineCondUp (x : List ℚ) (i : ℕ) : Prop :=
  ((pySlice x ((i : Int) - 5) (i : Int)).countP (fun v => v ≤ x.getD i 0) : ℚ) ≥ 8/10 * 5

/-- Refinement condition for DOWN (line 171). -/
def refineCondDown (x : List ℚ) (i : ℕ) : Prop :=
  ((pySlice x ((i : Int) - 5) (i : Int)).countP (fun v => x.getD i 0 ≤ v) : ℚ) ≥ 8/10 * 5

instance (x : List ℚ) (i : ℕ) : Decidable (refineCondUp x i) := by
  unfold refineCondUp; infer_instance

instance (x : List ℚ) (i : ℕ) : Decidable (refineCondDown x i) := by
  unfold refineCondDown; infer_instance

/-- Body of the refinement pass at index `i` (lines 166–174): force
`event_mask[i-1]` to the value of an UP/DOWN sample at `i` whose onset
condition holds. -/
def refineStep (x : List ℚ) (m : List Int) (i : ℕ) : List Int :=
  if m.getD i 0 = 1 ∧ refineCondUp x i then m.set (i - 1) 1
  else if m.getD i 0 = -1 ∧ refineCondDown x i then m.set (i - 1) (-1)
  else m

/-- One full refinement pass `for i in range(1, len(event_mask) - 1)`. -/
def refinePass (x : List ℚ) (m : List Int) : List Int :=
  (List.range' 1 (m.length - 2)).foldl (refineStep x) m

/-- The `while cambios` fixed-point loop (lines 163–174), with explicit fuel.
A pass changes the array iff it sets `cambios`, so the loop exits exactly when
a pass returns its input unchanged; `refinePass_iterate_length_fixed` below
shows `length m` passes always suffice, so the fuel used in
`detect_events_with_params` is exact. -/
def refineLoop (x : List ℚ) : ℕ → List Int → List Int
  | 0, m => m
  | fuel + 1, m =>
    let m' := refinePass x m
    if m' = m then m else refineLoop x fuel m'

/-- Gap-filling step at index `i` (lines 178–185). -/
def gapStep (pre post : ℕ) (m : List Int) (i : ℕ) : List Int :=
  if m.getD i 0 = 0 ∧ (pySlice m ((i : Int) - pre) (i : Int)).contains 1 ∧
      (pySlice m ((i : Int) + 1) ((i : Int) + 1 + post)).contains 1 then
    m.set i 1
  else if m.getD i 0 = 0 ∧ (pySlice m ((i : Int) - pre) (i : Int)).contains (-1) ∧
      (pySlice m ((i : Int) + 1) ((i : Int) + 1 + post)).contains (-1) then
    m.set i (-1)
  else m

/-- Gap filling `for i in range(adyacent_pre_points, len(event_mask) -
adyacent_post_points - 1)` (lines 177–185). -/
def gapFill (pre post : ℕ) (m : List Int) : List Int :=
  (List.range' pre (m.length - post - 1 - pre)).foldl (gapStep pre post) m

/-- `SignalProcessor._detect_events_with_params` (lines 122–187): detection
loop, iterative refinement, gap filling; returns the classification mask.
(The leading underscore of the Python name is dropped.) -/
def detect_events_with_params (x : List ℚ) (w : ℕ) (k_up k_down influence : ℚ)
    (run_min pre post : ℕ) : List Int :=
  let s := detectLoop x w k_up k_down influence run_min
  gapFill pre post (refineLoop x x.length s.mask)

/-- Mutable state of the detection loop of `_detect_events_with_baseline`:
additionally records the baseline and deviation trajectories. -/
structure DetectStateB where
  mask : List Int
  xf : List ℚ
  baseline : ℚ
  std_dev : ℚ
  barr : List ℚ
  sarr : List ℚ

/-- One iteration of the detection loop of `_detect_events_with_baseline`
(lines 206–231); duplicates the `_detect_events_with_params` body and also
stores the recomputed baseline/deviation at index `i`. -/
def detectStepB (x : List ℚ) (w : ℕ) (k_up k_down influence : ℚ) (run_min : ℕ)
    (s : DetectStateB) (i : ℕ) : DetectStateB :=
  let xi := x.getD i 0
  let difference := xi - s.baseline
  let prev := s.mask.getD (i - 1) 0
  let damped := influence * xi + (1 - influence) * s.xf.getLastD 0
  let vApp : Int × ℚ :=
    if (difference > k_up * s.std_dev ∧ difference > 0) ∨ (difference > 0 ∧ prev = 1) then
      (1, damped)
    else if (difference < -k_down * s.std_dev ∧ difference < 0) ∨ (difference < 0 ∧ prev = -1) then
      (-1, damped)
    else (0, xi)
  let mask1 := s.mask.set i vApp.1
  let xf1 := s.xf ++ [vApp.2]
  let mask2 := runMerge w run_min mask1 i
  let xf2 := takeLast w xf1
  let b := median xf2
  let mad := median (xf2.map fun t => |t - b|)
  ⟨mask2, xf2, b, 14826/10000 * mad, s.barr.set i b, s.sarr.set i (14826/10000 * mad)⟩

/-- Initial state of `_detect_events_with_baseline` (lines 194–204): the
first `w` entries of both trajectories hold the initial baseline/deviation. -/
def detectInitB (x : List ℚ) (w : ℕ) : DetectStateB :=
  let xf := x.take w
  let b := median xf
  let sd := median (xf.map fun t => |t - b|) / (6745/10000)
  ⟨List.replicate x.length 0, xf, b, sd,
    pySetRange (List.replicate x.length 0) 0 (w : Int) b,
    pySetRange (List.replicate x.length 0) 0 (w : Int) sd⟩

/-- The detection loop of `_detect_events_with_baseline`. -/
def detectLoopB (x : List ℚ) (w : ℕ) (k_up k_down influence : ℚ) (run_min : ℕ) : DetectStateB :=
  (List.range' w (x.length - w)).foldl (detectStepB x w k_up k_down influence run_min)
    (detectInitB x w)

/-- `SignalProcessor._detect_events_with_baseline` (lines 189–258): same
algorithm, returning `(event_mask, baseline_array, std_array)`. -/
def detect_events_with_baseline (x : List ℚ) (w : ℕ) (k_up k_down influence : ℚ)
    (run_min pre post : ℕ) : List Int × List ℚ × List ℚ :=
  let s := detectLoopB x w k_up k_down influence run_min
  (gapFill pre post (refineLoop x x.length s.mask), s.barr, s.sarr)

/-- `SignalProcessor.robust_event_detection` (lines 55–120) on the selected
input trace `x`: short-circuit to all-zero arrays when `N < w * 2`, otherwise
merge an UP-tuned pass and a DOWN-tuned pass (`k_up := k_down * 2`) and take
the baseline/deviation trajectories from `_detect_events_with_baseline`. -/
def robust_event_detection (x : List ℚ) (w : ℕ) (k_up k_down influence : ℚ)
    (run_min pre post : ℕ) : List Int × List ℚ × List ℚ :=
  let N := x.length
  if N < w * 2 then
    (List.replicate N 0, List.replicate N 0, List.replicate N 0)
  else
    let mask_up := detect_events_with_params x w k_up k_down influence run_min pre post
    let mask_down := detect_events_with_params x w (k_down * 2) k_down influence run_min pre post
    let step1 := List.zipWith (fun u e => if u = (1 : Int) then (1 : Int) else e)
      mask_up (List.replicate N (0 : Int))
    let event_mask := List.zipWith (fun d e => if d = (-1 : Int) then (-1 : Int) else e)
      mask_down step1
    let bs := detect_events_with_baseline x w k_up k_down influence run_min pre post
    (event_mask, bs.2.1, bs.2.2)

/-! ## The stimulus-windowed metric extractor -/

/-- The metric record returned by `calculate_stimulus_metrics`
(lines 426–436). -/
structure StimMetrics where
  start_time : ℚ
  end_time : ℚ
  duration : ℚ
  area_total : ℚ
  area_1min : ℚ
  max_value : ℚ
  signal_corrected : List ℚ
  time_corrected : List ℚ
  baseline_local : List ℚ
deriving DecidableEq

/-- The inner `try` block computing `area_1min` (lines 410–418): the sample
count is `int(1 / (time_array[1] - time_array[0]))` — Python raises
`IndexError` when the time axis has fewer than two entries and
`OverflowError` (`int(inf)`) when the first time step is zero, and the inner
handler turns any such exception into `area_total`. -/
def area_first_minute_code (signal_corrected time_segment time_array : List ℚ) : ℚ :=
  let area_total := trapezoid signal_corrected time_segment
  if time_array.length < 2 then area_total
  else
    let dt := time_array.getD 1 0 - time_array.getD 0 0
    if dt = 0 then area_total
    else
      let one_min_indices := pyTrunc (1 / dt)
      if (signal_corrected.length : Int) > one_min_indices then
        trapezoid (pySlice signal_corrected 0 one_min_indices)
          (pySlice time_segment 0 one_min_indices)
      else area_total

/-- `time_array[-1]` fallback of line 351: raises `IndexError` on an empty
time axis when no next stimulus is given. -/
def effEnd (time_array : List ℚ) (next_stimulus_start : Option ℚ) : Except String ℚ :=
  match next_stimulus_start with
  | some v => Except.ok v
  | none =>
    match time_array.getLast? with
    | some v => Except.ok v
    | none => Except.error "IndexError"

/-- Body of the `try` block of `calculate_stimulus_metrics` (lines 349–436),
with Python exceptions modelled as `Except.error` and the explicit
`return None` paths as `Except.ok none`.  The elementwise combination of the
time mask with `event_mask` (lines 362–364) raises when the array shapes
differ. -/
def calcBody (signal_data time_array : List ℚ) (event_mask : List Int)
    (stimulus_start _stimulus_end : ℚ) (next_stimulus_start : Option ℚ) :
    Except String (Option StimMetrics) :=
  match effEnd time_array next_stimulus_start with
  | Except.error e => Except.error e
  | Except.ok effective_end =>
    let tAt := fun i => time_array.getD i 0
    let valid_time_range := (List.range time_array.length).filter fun i =>
      decide (stimulus_start ≤ tAt i) && decide (tAt i ≤ effective_end)
    if valid_time_range = [] then Except.ok none
    else if time_array.length ≠ event_mask.length then Except.error "ValueError"
    else
      let start_indices := (List.range time_array.length).filter fun i =>
        decide (stimulus_start ≤ tAt i) && decide (tAt i ≤ effective_end) &&
          decide (event_mask.getD i 0 = 1)
      let startRes : Option ℕ :=
        match start_indices.head? with
        | some j => some j
        | none =>
          ((List.range time_array.length).filter fun i => decide (stimulus_start ≤ tAt i)).head?
      match startRes with
      | none => Except.ok none
      | some start_idx =>
        let end_indices := (List.range time_array.length).filter fun i =>
          decide (tAt start_idx < tAt i) && decide (tAt i ≤ effective_end) &&
            decide (event_mask.getD i 0 = -1)
        let endRes : Option ℕ :=
          match end_indices.getLast? with
          | some j => some j
          | none =>
            ((List.range time_array.length).filter fun i => decide (tAt i ≤ effective_end)).getLast?
        match endRes with
        | none => Except.ok none
        | some end_idx =>
          if start_idx ≥ end_idx ∨ start_idx ≥ signal_data.length ∨
              end_idx ≥ signal_data.length then Except.ok none
          else
            let signal_segment := pySlice signal_data (start_idx : Int) ((end_idx : Int) + 1)
            let time_segment := pySlice time_array (start_idx : Int) ((end_idx : Int) + 1)
            if signal_segment.length < 2 ∨ time_segment.length < 2 then Except.ok none
            else
              let baseline_local :=
                linspace (signal_segment.getD 0 0) (signal_segment.getLastD 0)
                  signal_segment.length
              let signal_corrected := List.zipWith (· - ·) signal_segment baseline_local
              let area_total := trapezoid signal_corrected time_segment
              let area_1min := area_first_minute_code signal_corrected time_segment time_array
              Except.ok (some
                { start_time := time_segment.getD 0 0
                  end_time := time_segment.getLastD 0
                  duration := time_segment.getLastD 0 - time_segment.getD 0 0
                  area_total := area_total
                  area_1min := area_1min
                  max_value := listMax signal_corrected
                  signal_corrected := signal_corrected
                  time_corrected := time_segment
                  baseline_local := baseline_local })

/-- `calculate_stimulus_metrics` with the surrounding `try/except` made
explicit in the `Except` result: the handler at lines 438–440 converts every
exception of the body into the "no metric" value. -/
def calculate_stimulus_metricsE (signal_data time_array : List ℚ) (event_mask : List Int)
    (stimulus_start stimulus_end : ℚ) (next_stimulus_start : Option ℚ) :
    Except String (Option StimMetrics) :=
  match calcBody signal_data time_array event_mask stimulus_start stimulus_end
      next_stimulus_start with
  | Except.ok o => Except.ok o
  | Except.error _ => Except.ok none

/-- `calculate_stimulus_metrics` (lines 333–440) as seen by its callers. -/
def calculate_stimulus_metrics (signal_data time_array : List ℚ) (event_mask : List Int)
    (stimulus_start stimulus_end : ℚ) (next_stimulus_start : Option ℚ) :
    Option StimMetrics :=
  match calcBody signal_data time_array event_mask stimulus_start stimulus_end
      next_stimulus_start with
  | Except.ok o => o
  | Except.error _ => none

/-- Modelled from the spec: `area_first_minute` as §4.4 words it, with the
one-minute sample count derived from the **median** time step of the time
axis (the code instead uses the first time step `time_array[1] -
time_array[0]`), falling back to `area_total` when the segment is not longer
than one minute's worth of samples. -/
def area_first_minute_specMedian (signal_corrected time_segment time_array : List ℚ) : ℚ :=
  let area_total := trapezoid signal_corrected time_segment
  let mdt := median (List.zipWith (· - ·) (time_array.drop 1) time_array)
  if mdt = 0 then area_total
  else
    let one_min_indices := pyTrunc (1 / mdt)
    if (signal_corrected.length : Int) > one_min_indices then
      trapezoid (pySlice signal_corrected 0 one_min_indices)
        (pySlice time_segment 0 one_min_indices)
    else area_total

/-! ## Frequency-domain utilities -/

/-- Cutoff argument of `apply_butter_filter`: a scalar frequency or a
band pair, either possibly `None` (numpy tuple/list cutoffs of any length are
covered by the `band` constructor). -/
inductive CutoffHz where
  | scalar : Option ℚ → CutoffHz
  | band : List (Option ℚ) → CutoffHz

/-- `apply_butter_filter` (lines 481–516).  The scipy design/filter pair
`signal.butter` + `signal.filtfilt` (external library code) is abstracted as
the function argument `filterCore`, applied only on the branch where the code
reaches it; every guard branch returns the input unchanged. -/
def apply_butter_filter (filterCore : List ℚ → List ℚ) (signal_data : List ℚ)
    (sampling_rate_hz : ℚ) (filter_type : String) (cutoff_hz : CutoffHz) : List ℚ :=
  if filter_type = "none" then signal_data
  else if sampling_rate_hz ≤ 0 then signal_data
  else
    let nyquist := 1/2 * sampling_rate_hz
    match cutoff_hz with
    | CutoffHz.band cs =>
      match cs with
      | [some c0, some c1] =>
        if c0 ≤ 0 ∨ c1 ≥ nyquist ∨ c0 ≥ c1 then signal_data
        else filterCore signal_data
      | _ => signal_data
    | CutoffHz.scalar c =>
      match c with
      | none => signal_data
      | some c0 =>
        if c0 ≤ 0 ∨ c0 ≥ nyquist then signal_data
        else filterCore signal_data

/-- `np.fft.rfftfreq n (d := 1 / fs)`: the bins `k · fs / n` for
`k = 0 … ⌊n/2⌋`. -/
def rfftfreq (n : ℕ) (fs : ℚ) : List ℚ :=
  (List.range (n / 2 + 1)).map fun (k : ℕ) => (k : ℚ) * fs / (n : ℚ)

/-- Frequency-bin component of `compute_fft_spectrum` (line 541):
`np.fft.rfftfreq(len(x), d=1.0/sampling_rate_hz)`.  The detrend and Hann
preprocessing steps (lines 533–538) leave `len(x)` unchanged, so the bins
depend only on the input length and the sampling rate. -/
def compute_fft_spectrum_freqs (signal_data : List ℚ) (sampling_rate_hz : ℚ) : List ℚ :=
  rfftfreq signal_data.length sampling_rate_hz

/-! ## Basic lemmas about the helpers -/

theorem foldlSet_length {α : Type} (v : α) :
    ∀ (js : List ℕ) (l : List α), (js.foldl (fun acc j => acc.set j v) l).length = l.length := by
  intro js
  induction js with
  | nil => intro l; rfl
  | cons j js ih => intro l; rw [List.foldl_cons, ih, List.length_set]

theorem pySetRange_length {α : Type} (l : List α) (a b : Int) (v : α) :
    (pySetRange l a b v).length = l.length := by
  unfold pySetRange
  exact foldlSet_length v _ l

theorem foldlSet_getElem? {α : Type} (v : α) :
    ∀ (c s : ℕ) (l : List α) (j : ℕ),
      ((List.range' s c).foldl (fun acc j => acc.set j v) l)[j]? =
        if s ≤ j ∧ j < s + c ∧ j < l.length then some v else l[j]? := by
  intro c
  induction c with
  | zero =>
    intro s l j
    simp only [List.range', List.foldl_nil]
    rw [if_neg]
    omega
  | succ c ih =>
    intro s l j
    rw [List.range'_succ, List.foldl_cons, ih, List.length_set, List.getElem?_set]
    rcases Nat.lt_or_ge j l.length with hj | hj
    · split_ifs <;> first | rfl | omega
    · rw [List.getElem?_eq_none hj]
      split_ifs <;> first | rfl | omega

theorem pySetRange_getElem? {α : Type} (l : List α) (a b : Int) (v : α) (j : ℕ) :
    (pySetRange l a b v)[j]? =
      if (pySliceBounds l.length a b).1 ≤ j ∧ j < (pySliceBounds l.length a b).2 ∧ j < l.length
      then some v else l[j]? := by
  unfold pySetRange
  rw [foldlSet_getElem?]
  split_ifs <;> first | rfl | omega

theorem mem_zipWith {α β γ : Type} {f : α → β → γ} {v : γ} :
    ∀ {l₁ : List α} {l₂ : List β}, v ∈ List.zipWith f l₁ l₂ →
      ∃ a ∈ l₁, ∃ b ∈ l₂, v = f a b := by
  intro l₁
  induction l₁ with
  | nil => intro l₂ h; simp at h
  | cons a l₁ ih =>
    intro l₂ h
    cases l₂ with
    | nil => simp at h
    | cons b l₂ =>
      rcases List.mem_cons.mp h with h | h
      · exact ⟨a, List.mem_cons_self _ _, b, List.mem_cons_self _ _, h⟩
      · obtain ⟨a', ha, b', hb, hv⟩ := ih h
        exact ⟨a', List.mem_cons_of_mem _ ha, b', List.mem_cons_of_mem _ hb, hv⟩

/-- The admissible classification values. -/
def maskOK (m : List Int) : Prop := ∀ v ∈ m, v = -1 ∨ v = 0 ∨ v = 1

theorem maskOK_set {m : List Int} {i : ℕ} {v : Int}
    (hm : maskOK m) (hv : v = -1 ∨ v = 0 ∨ v = 1) : maskOK (m.set i v) := by
  intro u hu
  rcases List.mem_or_eq_of_mem_set hu with h | h
  · exact hm u h
  · subst h; exact hv

theorem maskOK_foldlSet {v : Int} (hv : v = -1 ∨ v = 0 ∨ v = 1) :
    ∀ (js : List ℕ) (l : List Int), maskOK l →
      maskOK (js.foldl (fun acc j => acc.set j v) l) := by
  intro js
  induction js with
  | nil => intro l h; exact h
  | cons j js ih => intro l h; exact ih _ (maskOK_set h hv)

theorem maskOK_pySetRange {m : List Int} {a b : Int} {v : Int}
    (hm : maskOK m) (hv : v = -1 ∨ v = 0 ∨ v = 1) : maskOK (pySetRange m a b v) := by
  unfold pySetRange
  exact maskOK_foldlSet hv _ _ hm

theorem maskOK_replicate (n : ℕ) : maskOK (List.replicate n 0) := by
  intro v hv
  rcases List.mem_replicate.mp hv with ⟨_, rfl⟩
  exact Or.inr (Or.inl rfl)

/-! ## Structural invariants of the detector -/

theorem runMerge_length (w r : ℕ) (m : List Int) (i : ℕ) :
    (runMerge w r m i).length = m.length := by
  unfold runMerge
  split_ifs <;> first | rfl | rw [pySetRange_length]

theorem maskOK_runMerge {w r : ℕ} {m : List Int} {i : ℕ} (hm : maskOK m) :
    maskOK (runMerge w r m i) := by
  unfold runMerge
  split_ifs <;>
    first
      | exact hm
      | exact maskOK_pySetRange hm (Or.inr (Or.inr rfl))
      | exact maskOK_pySetRange hm (Or.inl rfl)

theorem detectStep_mask_length (x : List ℚ) (w : ℕ) (k_up k_down influence : ℚ)
    (run_min : ℕ) (s : DetectState) (i : ℕ) :
    (detectStep x w k_up k_down influence run_min s i).mask.length = s.mask.length := by
  simp only [detectStep]
  rw [runMerge_length, List.length_set]

theorem maskOK_detectStep {x : List ℚ} {w : ℕ} {k_up k_down influence : ℚ}
    {run_min : ℕ} {s : DetectState} {i : ℕ} (hm : maskOK s.mask) :
    maskOK (detectStep x w k_up k_down influence run_min s i).mask := by
  simp only [detectStep]
  apply maskOK_runMerge
  apply maskOK_set hm
  split_ifs <;> simp

theorem detectLoop_foldl_mask (x : List ℚ) (w : ℕ) (k_up k_down influence : ℚ)
    (run_min : ℕ) :
    ∀ (js : List ℕ) (s : DetectState), maskOK s.mask →
      maskOK ((js.foldl (detectStep x w k_up k_down influence run_min) s).mask) ∧
        ((js.foldl (detectStep x w k_up k_down influence run_min) s).mask).length =
          s.mask.length := by
  intro js
  induction js with
  | nil => intro s hs; exact ⟨hs, rfl⟩
  | cons j js ih =>
    intro s hs
    rw [List.foldl_cons]
    obtain ⟨h1, h2⟩ := ih _ (maskOK_detectStep hs)
    exact ⟨h1, h2.trans (detectStep_mask_length ..)⟩

theorem detectLoop_mask (x : List ℚ) (w : ℕ) (k_up k_down influence : ℚ) (run_min : ℕ) :
    maskOK (detectLoop x w k_up k_down influence run_min).mask ∧
      (detectLoop x w k_up k_down influence run_min).mask.length = x.length := by
  unfold detectLoop
  obtain ⟨h1, h2⟩ := detectLoop_foldl_mask x w k_up k_down influence run_min
    (List.range' w (x.length - w)) (detectInit x w) (by
      simp only [detectInit]
      exact maskOK_replicate _)
  refine ⟨h1, h2.trans ?_⟩
  simp [detectInit]

theorem refineStep_length (x : List ℚ) (m : List Int) (i : ℕ) :
    (refineStep x m i).length = m.length := by
  unfold refineStep
  split_ifs <;> first | rfl | rw [List.length_set]

theorem maskOK_refineStep {x : List ℚ} {m : List Int} {i : ℕ} (hm : maskOK m) :
    maskOK (refineStep x m i) := by
  unfold refineStep
  split_ifs <;>
    first
      | exact hm
      | exact maskOK_set hm (Or.inr (Or.inr rfl))
      | exact maskOK_set hm (Or.inl rfl)

theorem refineFold_length (x : List ℚ) :
    ∀ (js : List ℕ) (m : List Int), ((js.foldl (refineStep x) m)).length = m.length := by
  intro js
  induction js with
  | nil => intro m; rfl
  | cons j js ih => intro m; rw [List.foldl_cons, ih, refineStep_length]

theorem refinePass_length (x : List ℚ) (m : List Int) :
    (refinePass x m).length = m.length := by
  unfold refinePass
  exact refineFold_length x _ m

theorem maskOK_refinePass {x : List ℚ} {m : List Int} (hm : maskOK m) :
    maskOK (refinePass x m) := by
  unfold refinePass
  generalize List.range' 1 (m.length - 2) = js
  induction js generalizing m with
  | nil => exact hm
  | cons j js ih => exact ih (maskOK_refineStep hm)

theorem refineLoop_length (x : List ℚ) :
    ∀ (fuel : ℕ) (m : List Int), (refineLoop x fuel m).length = m.length := by
  intro fuel
  induction fuel with
  | zero => intro m; rfl
  | succ fuel ih =>
    intro m
    simp only [refineLoop]
    split_ifs
    · rfl
    · rw [ih, refinePass_length]

theorem maskOK_refineLoop {x : List ℚ} {m : List Int} (hm : maskOK m) :
    ∀ fuel, maskOK (refineLoop x fuel m) := by
  intro fuel
  induction fuel generalizing m with
  | zero => exact hm
  | succ fuel ih =>
    simp only [refineLoop]
    split_ifs
    · exact hm
    · exact ih (maskOK_refinePass hm)

theorem gapStep_length (pre post : ℕ) (m : List Int) (i : ℕ) :
    (gapStep pre post m i).length = m.length := by
  unfold gapStep
  split_ifs <;> first | rfl | rw [List.length_set]

theorem maskOK_gapStep {pre post : ℕ} {m : List Int} {i : ℕ} (hm : maskOK m) :
    maskOK (gapStep pre post m i) := by
  unfold gapStep
  split_ifs <;>
    first
      | exact hm
      | exact maskOK_set hm (Or.inr (Or.inr rfl))
      | exact maskOK_set hm (Or.inl rfl)

theorem gapFill_length (pre post : ℕ) (m : List Int) :
    (gapFill pre post m).length = m.length := by
  unfold gapFill
  generalize List.range' pre (m.length - post - 1 - pre) = js
  induction js generalizing m with
  | nil => rfl
  | cons j js ih => rw [List.foldl_cons, ih, gapStep_length]

theorem maskOK_gapFill {pre post : ℕ} {m : List Int} (hm : maskOK m) :
    maskOK (gapFill pre post m) := by
  unfold gapFill
  generalize List.range' pre (m.length - post - 1 - pre) = js
  induction js generalizing m with
  | nil => exact hm
  | cons j js ih => exact ih (maskOK_gapStep hm)

theorem detect_events_with_params_length (x : List ℚ) (w : ℕ)
    (k_up k_down influence : ℚ) (run_min pre post : ℕ) :
    (detect_events_with_params x w k_up k_down influence run_min pre post).length =
      x.length := by
  unfold detect_events_with_params
  rw [gapFill_length, refineLoop_length]
  exact (detectLoop_mask x w k_up k_down influence run_min).2

theorem maskOK_detect_events_with_params (x : List ℚ) (w : ℕ)
    (k_up k_down influence : ℚ) (run_min pre post : ℕ) :
    maskOK (detect_events_with_params x w k_up k_down influence run_min pre post) := by
  unfold detect_events_with_params
  exact maskOK_gapFill (maskOK_refineLoop
    (detectLoop_mask x w k_up k_down influence run_min).1 _)

/-! ## C1: classification length and value range -/

/-- **C1.** For every input trace and every parameter setting, the event
classification array returned by `robust_event_detection` has the same length
as the input trace, and every entry is −1, 0, or 1; no value outside
{−1, 0, 1} is ever produced. -/
theorem C1_classification_values_and_length (x : List ℚ) (w : ℕ)
    (k_up k_down influence : ℚ) (run_min pre post : ℕ) :
    (robust_event_detection x w k_up k_down influence run_min pre post).1.length = x.length ∧
      ∀ v ∈ (robust_event_detection x w k_up k_down influence run_min pre post).1,
        v = -1 ∨ v = 0 ∨ v = 1 := by
  simp only [robust_event_detection]
  split_ifs with h
  · refine ⟨List.length_replicate .., ?_⟩
    intro v hv
    rcases List.mem_replicate.mp hv with ⟨_, rfl⟩
    exact Or.inr (Or.inl rfl)
  · constructor
    · rw [List.length_zipWith, List.length_zipWith, List.length_replicate,
        detect_events_with_params_length, detect_events_with_params_length]
      omega
    · intro v hv
      obtain ⟨d, _, e, he, rfl⟩ := mem_zipWith hv
      by_cases hd : d = -1
      · simp [hd]
      · rw [if_neg hd]
        obtain ⟨u, _, z, hz, rfl⟩ := mem_zipWith he
        rcases List.mem_replicate.mp hz with ⟨_, rfl⟩
        by_cases hu : u = 1
        · simp [hu]
        · rw [if_neg hu]
          exact Or.inr (Or.inl rfl)

/-! ## C4: short traces fail soft -/

/-- **C4.** For every trace of length `N` and detection window `w` with
`N < 2·w`, `robust_event_detection` returns all-zero classification,
baseline, and variability arrays, each of length `N`, and (being a total
function) never raises. -/
theorem C4_short_trace_all_zero (x : List ℚ) (w : ℕ) (k_up k_down influence : ℚ)
    (run_min pre post : ℕ) (h : x.length < w * 2) :
    robust_event_detection x w k_up k_down influence run_min pre post =
      (List.replicate x.length 0, List.replicate x.length 0, List.replicate x.length 0) := by
  simp only [robust_event_detection]
  rw [if_pos h]

/-- Witness for C4 at `x = [5]`, `w = 3`. -/
theorem C4_short_trace_all_zero_witness :
    ([(5 : ℚ)].length < 3 * 2) ∧
      robust_event_detection [(5 : ℚ)] 3 (165/100) (165/100) (95/100) 10 5 5 =
        ([0], [0], [0]) :=
  ⟨by decide, C4_short_trace_all_zero [(5 : ℚ)] 3 (165/100) (165/100) (95/100) 10 5 5
    (by decide)⟩

/-! ## C10: DOWN labels take precedence in the two-pass merge -/

/-- **C10.** In the two-pass merge of `robust_event_detection`, every sample
index labeled UP by the UP-tuned pass and DOWN by the DOWN-tuned pass ends up
DOWN in the combined classification: the DOWN pass's −1 labels are applied
after the UP pass's +1 labels and win on conflict. -/
theorem C10_down_takes_precedence (x : List ℚ) (w : ℕ) (k_up k_down influence : ℚ)
    (run_min pre post : ℕ) (i : ℕ)
    (hN : ¬ x.length < w * 2)
    (hu : (detect_events_with_params x w k_up k_down influence run_min pre post)[i]? = some 1)
    (hd : (detect_events_with_params x w (k_down * 2) k_down influence run_min pre post)[i]? =
      some (-1)) :
    (robust_event_detection x w k_up k_down influence run_min pre post).1[i]? = some (-1) := by
  have hi : i < x.length := by
    have := (List.getElem?_eq_some.mp hu).fst
    rwa [detect_events_with_params_length] at this
  simp only [robust_event_detection]
  rw [if_neg hN]
  simp [List.getElem?_zipWith, hd, hu, List.getElem?_replicate, if_pos hi]

/-- Witness for C10: on the trace `[2, 0, 2, 2, 1]` with `w = 2`,
`k_up = 1/10`, `k_down = 1`, `influence = 0`, the UP pass labels index 4 UP,
the DOWN pass labels it DOWN, and the combined classification at index 4 is
DOWN. -/
theorem C10_down_takes_precedence_witness :
    (¬ ([(2 : ℚ), 0, 2, 2, 1].length < 2 * 2)) ∧
      (detect_events_with_params [(2 : ℚ), 0, 2, 2, 1] 2 (1/10) 1 0 3 5 5)[4]? = some 1 ∧
      (detect_events_with_params [(2 : ℚ), 0, 2, 2, 1] 2 (1 * 2) 1 0 3 5 5)[4]? = some (-1) ∧
      (robust_event_detection [(2 : ℚ), 0, 2, 2, 1] 2 (1/10) 1 0 3 5 5).1[4]? = some (-1) := by
  have hu : detect_events_with_params [(2 : ℚ), 0, 2, 2, 1] 2 (1/10) 1 0 3 5 5 =
      [0, 0, 1, 1, 1] := by
    norm_num [detect_events_with_params, detectLoop, detectStep, detectInit, runMerge, median,
      takeLast, pySlice, pySliceBounds, pySetRange, List.insertionSort, List.orderedInsert,
      List.range', refineLoop, refinePass, refineStep, refineCondUp, refineCondDown,
      gapFill, gapStep, List.countP, List.countP.go, List.count, List.contains, List.elem]
    decide
  have hd : detect_events_with_params [(2 : ℚ), 0, 2, 2, 1] 2 (1 * 2) 1 0 3 5 5 =
      [0, 0, 0, 0, -1] := by
    norm_num [detect_events_with_params, detectLoop, detectStep, detectInit, runMerge, median,
      takeLast, pySlice, pySliceBounds, pySetRange, List.insertionSort, List.orderedInsert,
      List.range', refineLoop, refinePass, refineStep, refineCondUp, refineCondDown,
      gapFill, gapStep, List.countP, List.countP.go, List.count, List.contains, List.elem]
    decide
  refine ⟨by decide, by rw [hu]; decide, by rw [hd]; decide, ?_⟩
  exact C10_down_takes_precedence [(2 : ℚ), 0, 2, 2, 1] 2 (1/10) 1 0 3 5 5 4
    (by decide) (by rw [hu]; decide) (by rw [hd]; decide)

/-! ## C9: the two detection paths agree on the event mask -/

theorem detectStepB_projections (x : List ℚ) (w : ℕ) (k_up k_down influence : ℚ)
    (run_min : ℕ) (sP : DetectState) (sB : DetectStateB)
    (h1 : sB.mask = sP.mask) (h2 : sB.xf = sP.xf) (h3 : sB.baseline = sP.baseline)
    (h4 : sB.std_dev = sP.std_dev) (i : ℕ) :
    (detectStepB x w k_up k_down influence run_min sB i).mask =
        (detectStep x w k_up k_down influence run_min sP i).mask ∧
      (detectStepB x w k_up k_down influence run_min sB i).xf =
        (detectStep x w k_up k_down influence run_min sP i).xf ∧
      (detectStepB x w k_up k_down influence run_min sB i).baseline =
        (detectStep x w k_up k_down influence run_min sP i).baseline ∧
      (detectStepB x w k_up k_down influence run_min sB i).std_dev =
        (detectStep x w k_up k_down influence run_min sP i).std_dev := by
  simp only [detectStep, detectStepB, h1, h2, h3, h4]
  exact ⟨trivial, trivial, trivial, trivial⟩

theorem detectLoopB_foldl_projections (x : List ℚ) (w : ℕ) (k_up k_down influence : ℚ)
    (run_min : ℕ) :
    ∀ (js : List ℕ) (sP : DetectState) (sB : DetectStateB),
      sB.mask = sP.mask → sB.xf = sP.xf → sB.baseline = sP.baseline →
      sB.std_dev = sP.std_dev →
      ((js.foldl (detectStepB x w k_up k_down influence run_min) sB).mask =
        (js.foldl (detectStep x w k_up k_down influence run_min) sP).mask) := by
  intro js
  induction js with
  | nil => intro sP sB h1 _ _ _; exact h1
  | cons j js ih =>
    intro sP sB h1 h2 h3 h4
    obtain ⟨g1, g2, g3, g4⟩ :=
      detectStepB_projections x w k_up k_down influence run_min sP sB h1 h2 h3 h4 j
    exact ih _ _ g1 g2 g3 g4

/-- **C9.** For every trace and identical parameters, the classification-only
path `_detect_events_with_params` and the path that also emits
baseline/variability trajectories `_detect_events_with_baseline` produce
exactly the same event-mask array. -/
theorem C9_params_baseline_same_mask (x : List ℚ) (w : ℕ) (k_up k_down influence : ℚ)
    (run_min pre post : ℕ) :
    (detect_events_with_baseline x w k_up k_down influence run_min pre post).1 =
      detect_events_with_params x w k_up k_down influence run_min pre post := by
  unfold detect_events_with_baseline detect_events_with_params
  have h := detectLoopB_foldl_projections x w k_up k_down influence run_min
    (List.range' w (x.length - w)) (detectInit x w) (detectInitB x w)
    rfl rfl rfl rfl
  simp only [detectLoopB, detectLoop]
  rw [h]

/-! ## C2: the run-merge backfill rule -/

/-- **C2 is false as stated.**  Counterexample with `w = 1`, `r = 5`,
`i = 7` on the mask `[0,0,0,1,1,1,1,1]`: sample 7 is UP and 4 of the 5
preceding samples (indices 2–6) are UP — at least 80 % — yet `runMerge`
leaves index 2 at 0 instead of backfilling the run, because the code counts
only `event_mask[i-5:i-1]` (3 UP there) against the strict bound
`> 0.8·5 = 4`. -/
theorem C2_counterexample :
    7 > 1 + 5 ∧
      List.getD ([0, 0, 0, 1, 1, 1, 1, 1] : List Int) 7 0 = 1 ∧
      (((pySlice ([0, 0, 0, 1, 1, 1, 1, 1] : List Int) 2 7).count 1 : ℚ) ≥ 8/10 * 5) ∧
      (runMerge 1 5 [0, 0, 0, 1, 1, 1, 1, 1] 7)[2]? = some 0 := by
  refine ⟨by norm_num, by decide, ?_, ?_⟩
  · rw [show (pySlice ([0, 0, 0, 1, 1, 1, 1, 1] : List Int) 2 7).count 1 = 4 from by decide]
    norm_num
  · have h : runMerge 1 5 [0, 0, 0, 1, 1, 1, 1, 1] 7 = [0, 0, 0, 1, 1, 1, 1, 1] := by
      norm_num [runMerge, pySlice, pySliceBounds, List.count, List.countP, List.countP.go,
        List.take, List.drop, Int.toNat, show ((0 : Int) == 1) = false from rfl,
        show ((1 : Int) == 1) = true from rfl, show ((0 : Int) == -1) = false from rfl,
        show ((1 : Int) == -1) = false from rfl]
    rw [h]
    decide

/-- **C2 (amended).**  Once `i > w + r`, if sample `i` is classified UP and
strictly more than `0.8·r` of the `r − 1` samples at indices
`i−r, …, i−2` (the preceding `r` samples excluding the immediately preceding
one) are UP, the whole slice `i−r, …, i−1` is backfilled to UP; symmetric
rule for DOWN. -/
theorem C2_run_merge_amended (w r : ℕ) (m : List Int) (i : ℕ) (v : Int)
    (hv : v = 1 ∨ v = -1) (hgate : i > w + r) (hmi : m.getD i 0 = v)
    (hcount : ((pySlice m ((i : Int) - r) ((i : Int) - 1)).count v : ℚ) > 8/10 * r)
    (j : ℕ) (hj1 : i - r ≤ j) (hj2 : j < i) (hj3 : j < m.length) :
    (runMerge w r m i)[j]? = some v := by
  unfold runMerge
  rw [if_pos hgate]
  rcases hv with rfl | rfl
  · rw [if_pos ⟨hmi, hcount⟩, pySetRange_getElem?, if_pos]
    simp only [pySliceBounds]
    split_ifs <;> omega
  · rw [if_neg (by rintro ⟨h1, -⟩; rw [hmi] at h1; exact absurd h1 (by decide)),
      if_pos ⟨hmi, hcount⟩, pySetRange_getElem?, if_pos]
    simp only [pySliceBounds]
    split_ifs <;> omega

/-- Witness for the amended C2 at `w = 1`, `r = 6`, `i = 8` on
`[0,0,1,1,1,1,1,0,1]`: all five counted samples (indices 2–6) are UP,
`5 > 0.8·6`, so index 7 is backfilled to UP. -/
theorem C2_run_merge_amended_witness :
    8 > 1 + 6 ∧ (runMerge 1 6 [0, 0, 1, 1, 1, 1, 1, 0, 1] 8)[7]? = some 1 :=
  ⟨by norm_num,
    C2_run_merge_amended 1 6 [0, 0, 1, 1, 1, 1, 1, 0, 1] 8 1 (Or.inl rfl) (by norm_num)
      (by decide)
      (by norm_num [pySlice, pySliceBounds, List.count, List.countP, List.countP.go,
        List.take, List.drop, Int.toNat])
      7 (by norm_num) (by norm_num) (by norm_num)⟩

/-! ## C5: the metric extractor never lets an exception escape -/

/-- **C5.** For every input, `calculate_stimulus_metrics` never propagates an
exception to its caller: the handler converts every exception raised in the
body into the "no metric" result, so the observable outcome is always an
ordinary value (`Except.ok`), and on any body exception the caller sees
`none`. -/
theorem C5_no_exception_escapes (signal_data time_array : List ℚ) (event_mask : List Int)
    (stimulus_start stimulus_end : ℚ) (next_stimulus_start : Option ℚ) :
    (∃ o, calculate_stimulus_metricsE signal_data time_array event_mask stimulus_start
        stimulus_end next_stimulus_start = Except.ok o) ∧
      (∀ er, calcBody signal_data time_array event_mask stimulus_start stimulus_end
          next_stimulus_start = Except.error er →
        calculate_stimulus_metrics signal_data time_array event_mask stimulus_start
          stimulus_end next_stimulus_start = none) := by
  constructor
  · unfold calculate_stimulus_metricsE
    cases calcBody signal_data time_array event_mask stimulus_start stimulus_end
        next_stimulus_start with
    | ok o => exact ⟨o, rfl⟩
    | error _ => exact ⟨none, rfl⟩
  · intro er h
    unfold calculate_stimulus_metrics
    rw [h]

/-! ## C6: Butterworth-filter parameter guards are a no-op, not an error -/

/-- **C6.** `apply_butter_filter` returns the input values unchanged whenever
the sampling rate is ≤ 0, or any (well-formed) cutoff is ≤ 0 or ≥ the Nyquist
frequency (half the sampling rate), or, for band filters, the low cutoff is
≥ the high cutoff. -/
theorem C6_butter_guards_no_op (filterCore : List ℚ → List ℚ) (signal_data : List ℚ)
    (sampling_rate_hz : ℚ) (filter_type : String) (cutoff_hz : CutoffHz)
    (h : sampling_rate_hz ≤ 0 ∨
      (∃ c, cutoff_hz = CutoffHz.scalar (some c) ∧
        (c ≤ 0 ∨ c ≥ 1/2 * sampling_rate_hz)) ∨
      (∃ lo hi, cutoff_hz = CutoffHz.band [some lo, some hi] ∧
        (lo ≤ 0 ∨ hi ≤ 0 ∨ lo ≥ 1/2 * sampling_rate_hz ∨ hi ≥ 1/2 * sampling_rate_hz ∨
          lo ≥ hi))) :
    apply_butter_filter filterCore signal_data sampling_rate_hz filter_type cutoff_hz =
      signal_data := by
  unfold apply_butter_filter
  split_ifs with h1 h2
  · rfl
  · rfl
  · rcases h with hfs | ⟨c, rfl, hc⟩ | ⟨lo, hi, rfl, hband⟩
    · exact absurd hfs h2
    · simp only
      rw [if_pos hc]
    · simp only
      rw [if_pos]
      rcases hband with h | h | h | h | h
      · exact Or.inl h
      · by_cases hlh : lo ≥ hi
        · exact Or.inr (Or.inr hlh)
        · exact Or.inl (by linarith [not_le.mp hlh])
      · by_cases hlh : lo ≥ hi
        · exact Or.inr (Or.inr hlh)
        · exact Or.inr (Or.inl (by linarith [not_le.mp hlh]))
      · exact Or.inr (Or.inl h)
      · exact Or.inr (Or.inr h)

/-- Witness for C6: a negative sampling rate with a nontrivial filter core
leaves the signal untouched. -/
theorem C6_butter_guards_no_op_witness :
    ((-1 : ℚ) ≤ 0) ∧
      apply_butter_filter (fun l => 0 :: l) [1, 2] (-1) "lowpass"
        (CutoffHz.scalar (some 1)) = [1, 2] :=
  ⟨by norm_num,
    C6_butter_guards_no_op (fun l => 0 :: l) [1, 2] (-1) "lowpass"
      (CutoffHz.scalar (some 1)) (Or.inl (by norm_num))⟩

/-! ## C7: the frequency axis of the magnitude spectrum -/

/-- **C7 is false as stated** for odd lengths: for the one-sample signal
`[1]` at sampling rate 2, the bin array is `[0]`, whose last entry 0 is not
the Nyquist frequency `2/2 = 1`, so the bins do not run "up to Nyquist
inclusive". -/
theorem C7_counterexample :
    compute_fft_spectrum_freqs [(1 : ℚ)] 2 = [0] ∧
      (compute_fft_spectrum_freqs [(1 : ℚ)] 2).getLast? = some 0 ∧ (0 : ℚ) ≠ 2 / 2 := by
  have h : compute_fft_spectrum_freqs [(1 : ℚ)] 2 = [0] := by
    norm_num [compute_fft_spectrum_freqs, rfftfreq, List.range, List.range.loop]
  exact ⟨h, by rw [h]; rfl, by norm_num⟩

/-- **C7 (amended).**  For every nonempty signal of length `N` and sampling
rate `fs > 0`, the frequency bins returned by `compute_fft_spectrum` are
`k · fs / N` for `k = 0 … ⌊N/2⌋`: they start at 0, are spaced at resolution
`fs / N`, and end at `⌊N/2⌋ · fs / N` — which equals the Nyquist frequency
`fs / 2` exactly when `N` is even (for odd `N` the last bin falls short of
Nyquist). -/
theorem C7_freqs_amended (x : List ℚ) (fs : ℚ) (hx : x ≠ []) (hfs : 0 < fs) :
    (compute_fft_spectrum_freqs x fs).length = x.length / 2 + 1 ∧
      (compute_fft_spectrum_freqs x fs).head? = some 0 ∧
      (∀ i, i < x.length / 2 + 1 →
        (compute_fft_spectrum_freqs x fs)[i]? = some ((i : ℚ) * fs / x.length)) ∧
      (compute_fft_spectrum_freqs x fs).getLast? =
        some (((x.length / 2 : ℕ) : ℚ) * fs / x.length) ∧
      (x.length % 2 = 0 → ((x.length / 2 : ℕ) : ℚ) * fs / x.length = fs / 2) := by
  have hN : x.length ≠ 0 := fun h => hx (List.eq_nil_of_length_eq_zero h)
  have hlen : (compute_fft_spectrum_freqs x fs).length = x.length / 2 + 1 := by
    unfold compute_fft_spectrum_freqs rfftfreq
    rw [List.length_map, List.length_range]
  have hget : ∀ i, i < x.length / 2 + 1 →
      (compute_fft_spectrum_freqs x fs)[i]? = some ((i : ℚ) * fs / x.length) := by
    intro i hi
    unfold compute_fft_spectrum_freqs rfftfreq
    rw [List.getElem?_map, List.getElem?_range hi]
    rfl
  refine ⟨hlen, ?_, hget, ?_, ?_⟩
  · rw [List.head?_eq_getElem?, hget 0 (by omega)]
    norm_num
  · rw [List.getLast?_eq_getElem?, hlen]
    simpa using hget (x.length / 2) (by omega)
  · intro heven
    obtain ⟨k, hk⟩ := (Nat.even_iff.mpr heven)
    have hk' : x.length = 2 * k := by omega
    have hk0 : k ≠ 0 := by omega
    rw [hk']
    rw [show (2 * k) / 2 = k from by omega]
    have : ((2 * k : ℕ) : ℚ) = 2 * (k : ℚ) := by push_cast; ring
    rw [this]
    have hkq : (k : ℚ) ≠ 0 := Nat.cast_ne_zero.mpr hk0
    field_simp
    ring

/-- Witness for the amended C7 at `x = [1, 2]`, `fs = 4`. -/
theorem C7_freqs_amended_witness :
    (compute_fft_spectrum_freqs [(1 : ℚ), 2] 4).length = [(1 : ℚ), 2].length / 2 + 1 ∧
      (compute_fft_spectrum_freqs [(1 : ℚ), 2] 4).head? = some 0 ∧
      (∀ i, i < [(1 : ℚ), 2].length / 2 + 1 →
        (compute_fft_spectrum_freqs [(1 : ℚ), 2] 4)[i]? =
          some ((i : ℚ) * 4 / [(1 : ℚ), 2].length)) ∧
      (compute_fft_spectrum_freqs [(1 : ℚ), 2] 4).getLast? =
        some ((([(1 : ℚ), 2].length / 2 : ℕ) : ℚ) * 4 / [(1 : ℚ), 2].length) ∧
      ([(1 : ℚ), 2].length % 2 = 0 →
        (([(1 : ℚ), 2].length / 2 : ℕ) : ℚ) * 4 / [(1 : ℚ), 2].length = 4 / 2) :=
  C7_freqs_amended [(1 : ℚ), 2] 4 (by decide) (by norm_num)

/-! ## C3: the first-minute area uses the first time step, not the median -/

/-- **C3 is false as stated.**  On signal `[0,1,0,0,0]` with the non-uniform
time axis `[0, 1/2, 3/5, 7/10, 4/5]` (first step 1/2, median step 1/10) and
no events, the extractor produces a record with `area_1min = 1/4` — the
trapezoidal integral of the first `int(1/(t[1]-t[0])) = 2` samples — while
the spec's median-derived rule yields `3/10` (the segment is shorter than one
median-derived minute, so the spec falls back to `area_total`). -/
theorem C3_counterexample :
    (calculate_stimulus_metrics [0, 1, 0, 0, 0] [0, 1/2, 3/5, 7/10, 4/5] [0, 0, 0, 0, 0]
          0 (1/2) none).map (fun r => r.area_1min) = some (1/4) ∧
      area_first_minute_specMedian [0, 1, 0, 0, 0] [0, 1/2, 3/5, 7/10, 4/5]
          [0, 1/2, 3/5, 7/10, 4/5] = 3/10 ∧
      ((1 : ℚ)/4 ≠ 3/10) := by
  have h : calculate_stimulus_metrics [0, 1, 0, 0, 0] [0, 1/2, 3/5, 7/10, 4/5] [0, 0, 0, 0, 0]
      0 (1/2) none =
      some ⟨0, 4/5, 4/5, 3/10, 1/4, 1, [0, 1, 0, 0, 0], [0, 1/2, 3/5, 7/10, 4/5],
        [0, 0, 0, 0, 0]⟩ := by
    norm_num [calculate_stimulus_metrics, calcBody, effEnd, linspace, trapezoid, pyTrunc,
      area_first_minute_code, listMax, pySlice, pySliceBounds, List.filter, List.range,
      List.range.loop, List.zipWith, List.getLast?, List.getLast, List.getLastD, List.getD,
      List.take, Int.toNat, Option.getD, List.head?]
    rfl
  refine ⟨by rw [h]; rfl, ?_, by norm_num⟩
  norm_num [area_first_minute_specMedian, median, trapezoid, pyTrunc, pySlice, pySliceBounds,
    List.insertionSort, List.orderedInsert, List.zipWith, List.getD, Int.toNat, List.take]

/-- **C3 (amended).**  Whenever `calculate_stimulus_metrics` produces a metric
record, `area_1min` is the trapezoidal integral of the baseline-corrected
segment restricted to the first `int(1/(t[1]-t[0]))` samples — the sample
count is derived from the **first** time step of the time axis, not the
median — and whenever the segment does not exceed that sample count (or the
count is unavailable), `area_1min` equals `area_total`, the trapezoidal
integral of the whole corrected segment. -/
theorem C3_area_first_minute (signal_data time_array : List ℚ) (event_mask : List Int)
    (stimulus_start stimulus_end : ℚ) (next_stimulus_start : Option ℚ) (r : StimMetrics)
    (h : calculate_stimulus_metrics signal_data time_array event_mask stimulus_start
        stimulus_end next_stimulus_start = some r) :
    r.area_total = trapezoid r.signal_corrected r.time_corrected ∧
      r.area_1min = area_first_minute_code r.signal_corrected r.time_corrected time_array ∧
      (2 ≤ time_array.length →
        time_array.getD 1 0 - time_array.getD 0 0 ≠ 0 →
        (r.signal_corrected.length : Int) ≤
            pyTrunc (1 / (time_array.getD 1 0 - time_array.getD 0 0)) →
        r.area_1min = r.area_total) := by
  unfold calculate_stimulus_metrics at h
  have hmain : r.area_total = trapezoid r.signal_corrected r.time_corrected ∧
      r.area_1min = area_first_minute_code r.signal_corrected r.time_corrected time_array := by
    cases hb : calcBody signal_data time_array event_mask stimulus_start stimulus_end
        next_stimulus_start with
    | error er => rw [hb] at h; simp at h
    | ok o =>
      rw [hb] at h
      subst h
      simp only [calcBody] at hb
      split at hb
      · simp at hb
      · split at hb
        · simp only [Except.ok.injEq] at hb; simp at hb
        · split at hb
          · simp at hb
          · split at hb
            · simp only [Except.ok.injEq] at hb; simp at hb
            · split at hb
              · simp only [Except.ok.injEq] at hb; simp at hb
              · split at hb
                · simp only [Except.ok.injEq] at hb; simp at hb
                · split at hb
                  · simp only [Except.ok.injEq] at hb; simp at hb
                  · simp only [Except.ok.injEq, Option.some.injEq] at hb
                    subst hb
                    exact ⟨rfl, rfl⟩
  refine ⟨hmain.1, hmain.2, ?_⟩
  intro h1 h2 h3
  rw [hmain.2]
  unfold area_first_minute_code
  rw [if_neg (by omega), if_neg h2, if_neg (not_lt.mpr h3)]
  exact hmain.1.symm

/-- Witness for the amended C3 on the concrete record produced for
signal `[0,1,0,0,0]`, time axis `[0, 1/2, 3/5, 7/10, 4/5]`. -/
theorem C3_area_first_minute_witness :
    (StimMetrics.mk 0 (4/5) (4/5) (3/10) (1/4) 1 [0, 1, 0, 0, 0]
          [0, 1/2, 3/5, 7/10, 4/5] [0, 0, 0, 0, 0]).area_total =
        trapezoid [0, 1, 0, 0, 0] [0, 1/2, 3/5, 7/10, 4/5] ∧
      (StimMetrics.mk 0 (4/5) (4/5) (3/10) (1/4) 1 [0, 1, 0, 0, 0]
          [0, 1/2, 3/5, 7/10, 4/5] [0, 0, 0, 0, 0]).area_1min =
        area_first_minute_code [0, 1, 0, 0, 0] [0, 1/2, 3/5, 7/10, 4/5]
          [0, 1/2, 3/5, 7/10, 4/5] ∧
      (2 ≤ ([0, 1/2, 3/5, 7/10, 4/5] : List ℚ).length →
        ([0, 1/2, 3/5, 7/10, 4/5] : List ℚ).getD 1 0 -
            ([0, 1/2, 3/5, 7/10, 4/5] : List ℚ).getD 0 0 ≠ 0 →
        (([0, 1, 0, 0, 0] : List ℚ).length : Int) ≤
            pyTrunc (1 / (([0, 1/2, 3/5, 7/10, 4/5] : List ℚ).getD 1 0 -
              ([0, 1/2, 3/5, 7/10, 4/5] : List ℚ).getD 0 0)) →
        (StimMetrics.mk 0 (4/5) (4/5) (3/10) (1/4) 1 [0, 1, 0, 0, 0]
            [0, 1/2, 3/5, 7/10, 4/5] [0, 0, 0, 0, 0]).area_1min =
          (StimMetrics.mk 0 (4/5) (4/5) (3/10) (1/4) 1 [0, 1, 0, 0, 0]
              [0, 1/2, 3/5, 7/10, 4/5] [0, 0, 0, 0, 0]).area_total) :=
  C3_area_first_minute [0, 1, 0, 0, 0] [0, 1/2, 3/5, 7/10, 4/5] [0, 0, 0, 0, 0] 0 (1/2) none
    (StimMetrics.mk 0 (4/5) (4/5) (3/10) (1/4) 1 [0, 1, 0, 0, 0] [0, 1/2, 3/5, 7/10, 4/5]
      [0, 0, 0, 0, 0])
    (by
      norm_num [calculate_stimulus_metrics, calcBody, effEnd, linspace, trapezoid, pyTrunc,
        area_first_minute_code, listMax, pySlice, pySliceBounds, List.filter, List.range,
        List.range.loop, List.zipWith, List.getLast?, List.getLast, List.getLastD, List.getD,
        List.take, Int.toNat, Option.getD, List.head?]
      rfl)

/-! ## C8: the backward-refinement fixed-point loop terminates -/

/-- Pointwise value written by one refinement pass at position `j < N − 2`:
the pass reads the pre-pass values (step `i` writes only position `i − 1` and
position `i` is only ever written by step `i + 1`, which runs later). -/
def refineVal (x : List ℚ) (m : List Int) (j : ℕ) : Int :=
  if m.getD (j + 1) 0 = 1 ∧ refineCondUp x (j + 1) then 1
  else if m.getD (j + 1) 0 = -1 ∧ refineCondDown x (j + 1) then -1
  else m.getD j 0

theorem refineFold_getElem? (x : List ℚ) (m : List Int) :
    ∀ (k : ℕ), k ≤ m.length - 2 → ∀ (j : ℕ),
      ((List.range' 1 k).foldl (refineStep x) m)[j]? =
        if j < k then some (refineVal x m j) else m[j]? := by
  intro k
  induction k with
  | zero => intro _ j; simp
  | succ k ih =>
    intro hk j
    have hk' : k ≤ m.length - 2 := by omega
    have harith : 1 + 1 * k = k + 1 := by ring
    rw [List.range'_concat, harith, List.foldl_append, List.foldl_cons, List.foldl_nil]
    have hmklen : ((List.range' 1 k).foldl (refineStep x) m).length = m.length :=
      refineFold_length x _ m
    set mk := (List.range' 1 k).foldl (refineStep x) m with hmkdef
    have hgd : mk.getD (k + 1) 0 = m.getD (k + 1) 0 := by
      rw [List.getD_eq_getElem?_getD, List.getD_eq_getElem?_getD, ih hk' (k + 1),
        if_neg (by omega)]
    unfold refineStep
    rw [hgd]
    have hsubk : k + 1 - 1 = k := by omega
    by_cases h1 : m.getD (k + 1) 0 = 1 ∧ refineCondUp x (k + 1)
    · rw [if_pos h1, hsubk, List.getElem?_set, hmklen]
      by_cases hjk : k = j
      · subst hjk
        rw [if_pos rfl, if_pos (by omega : k < m.length), if_pos (by omega : k < k + 1)]
        unfold refineVal
        rw [if_pos h1]
      · rw [if_neg hjk, ih hk' j]
        by_cases hjk2 : j < k
        · rw [if_pos hjk2, if_pos (by omega)]
        · rw [if_neg hjk2, if_neg (by omega)]
    · rw [if_neg h1]
      by_cases h2 : m.getD (k + 1) 0 = -1 ∧ refineCondDown x (k + 1)
      · rw [if_pos h2, hsubk, List.getElem?_set, hmklen]
        by_cases hjk : k = j
        · subst hjk
          rw [if_pos rfl, if_pos (by omega : k < m.length), if_pos (by omega : k < k + 1)]
          unfold refineVal
          rw [if_neg h1, if_pos h2]
        · rw [if_neg hjk, ih hk' j]
          by_cases hjk2 : j < k
          · rw [if_pos hjk2, if_pos (by omega)]
          · rw [if_neg hjk2, if_neg (by omega)]
      · rw [if_neg h2, ih hk' j]
        by_cases hjk2 : j < k
        · rw [if_pos hjk2, if_pos (by omega)]
        · by_cases hjk3 : j < k + 1
          · have hj : j = k := by omega
            subst hj
            rw [if_neg hjk2, if_pos hjk3]
            unfold refineVal
            rw [if_neg h1, if_neg h2, List.getD_eq_getElem?_getD,
              List.getElem?_eq_getElem (by omega : j < m.length)]
            rfl
          · rw [if_neg hjk2, if_neg hjk3]

/-- One refinement pass, pointwise: position `j < N − 2` receives
`refineVal` of the pre-pass array; positions `N − 2` and `N − 1` (and out of
range) are untouched. -/
theorem refinePass_getElem? (x : List ℚ) (m : List Int) (j : ℕ) :
    (refinePass x m)[j]? =
      if j < m.length - 2 then some (refineVal x m j) else m[j]? := by
  unfold refinePass
  exact refineFold_getElem? x m (m.length - 2) le_rfl j

theorem iterate_refinePass_length (x : List ℚ) (m : List Int) :
    ∀ p, ((refinePass x)^[p] m).length = m.length := by
  intro p
  induction p with
  | zero => rfl
  | succ p ih => rw [Function.iterate_succ_apply', refinePass_length, ih]

theorem iterate_refinePass_high (x : List ℚ) (m : List Int) (j : ℕ)
    (hj : m.length - 2 ≤ j) : ∀ p, ((refinePass x)^[p] m)[j]? = m[j]? := by
  intro p
  induction p with
  | zero => rfl
  | succ p ih =>
    rw [Function.iterate_succ_apply', refinePass_getElem?,
      if_neg (by rw [iterate_refinePass_length]; omega), ih]

theorem refine_stable_step (x : List ℚ) (m : List Int) (j p : ℕ)
    (hj : j < m.length - 2)
    (hstab : ∀ q, p ≤ q →
      ((refinePass x)^[q] m)[j + 1]? = ((refinePass x)^[p] m)[j + 1]?) :
    ∀ q, p + 1 ≤ q →
      ((refinePass x)^[q] m)[j]? = ((refinePass x)^[p + 1] m)[j]? := by
  have hgd : ∀ t, p ≤ t → ((refinePass x)^[t] m).getD (j + 1) 0 =
      ((refinePass x)^[p] m).getD (j + 1) 0 := by
    intro t ht
    rw [List.getD_eq_getElem?_getD, List.getD_eq_getElem?_getD, hstab t ht]
  by_cases h1 : ((refinePass x)^[p] m).getD (j + 1) 0 = 1 ∧ refineCondUp x (j + 1)
  · have hval : ∀ t, p ≤ t → ((refinePass x)^[t + 1] m)[j]? = some 1 := by
      intro t ht
      rw [Function.iterate_succ_apply', refinePass_getElem?,
        if_pos (by rw [iterate_refinePass_length]; omega)]
      unfold refineVal
      rw [hgd t ht, if_pos h1]
    intro q hq
    obtain ⟨t, rfl⟩ : ∃ t, q = t + 1 := ⟨q - 1, by omega⟩
    rw [hval t (by omega), hval p le_rfl]
  · by_cases h2 : ((refinePass x)^[p] m).getD (j + 1) 0 = -1 ∧ refineCondDown x (j + 1)
    · have hval : ∀ t, p ≤ t → ((refinePass x)^[t + 1] m)[j]? = some (-1) := by
        intro t ht
        rw [Function.iterate_succ_apply', refinePass_getElem?,
          if_pos (by rw [iterate_refinePass_length]; omega)]
        unfold refineVal
        rw [hgd t ht, if_neg h1, if_pos h2]
      intro q hq
      obtain ⟨t, rfl⟩ : ∃ t, q = t + 1 := ⟨q - 1, by omega⟩
      rw [hval t (by omega), hval p le_rfl]
    · have hval : ∀ t, p ≤ t →
          ((refinePass x)^[t + 1] m)[j]? = ((refinePass x)^[t] m)[j]? := by
        intro t ht
        rw [Function.iterate_succ_apply', refinePass_getElem?,
          if_pos (by rw [iterate_refinePass_length]; omega)]
        unfold refineVal
        rw [hgd t ht, if_neg h1, if_neg h2, List.getD_eq_getElem?_getD,
          List.getElem?_eq_getElem (by rw [iterate_refinePass_length]; omega :
            j < ((refinePass x)^[t] m).length)]
        rfl
      have hconst : ∀ d, ((refinePass x)^[p + d] m)[j]? = ((refinePass x)^[p] m)[j]? := by
        intro d
        induction d with
        | zero => rfl
        | succ d ih => rw [show p + (d + 1) = (p + d) + 1 from rfl, hval (p + d) (by omega), ih]
      intro q hq
      rw [show q = p + (q - p) from by omega, hconst (q - p), ← hconst 1]

theorem refine_stable_main (x : List ℚ) (m : List Int) :
    ∀ (d j : ℕ), m.length - 2 ≤ j + d →
      ∀ q, d ≤ q → ((refinePass x)^[q] m)[j]? = ((refinePass x)^[d] m)[j]? := by
  intro d
  induction d with
  | zero =>
    intro j hj q _
    rw [iterate_refinePass_high x m j (by omega) q]
    rfl
  | succ d ih =>
    intro j hj q hq
    by_cases hcase : m.length - 2 ≤ j + d
    · rw [ih j hcase q (by omega), ← ih j hcase (d + 1) (by omega)]
    · have hjlt : j < m.length - 2 := by omega
      exact refine_stable_step x m j d hjlt (fun t ht => ih (j + 1) (by omega) t ht) q hq

/-- After `length m` full passes the refinement has reached a fixed point:
one further pass changes nothing. -/
theorem refinePass_iterate_length_fixed (x : List ℚ) (m : List Int) :
    refinePass x ((refinePass x)^[m.length] m) = (refinePass x)^[m.length] m := by
  apply List.ext_getElem?
  intro j
  rw [show refinePass x ((refinePass x)^[m.length] m) = (refinePass x)^[m.length + 1] m from
    (Function.iterate_succ_apply' _ _ _).symm]
  exact refine_stable_main x m m.length j (by omega) (m.length + 1) (by omega)

/-- **C8.** For every finite input trace and every classification array, the
iterative backward refinement loop — which repeats full `refinePass` passes
until no sample changes — terminates after finitely many passes: some
iterate of `refinePass` is a fixed point (at most `length m` passes are
needed). -/
theorem C8_refinement_terminates (x : List ℚ) (m : List Int) :
    ∃ k, refinePass x ((refinePass x)^[k] m) = (refinePass x)^[k] m :=
  ⟨m.length, refinePass_iterate_length_fixed x m⟩

/-- Witness for C5 at a concrete exception-raising input: with an empty time
axis and no next stimulus, the body raises `IndexError` at `time_array[-1]`,
and the caller-visible result is `none`, not an exception. -/
theorem C5_no_exception_escapes_witness :
    calcBody [(1 : ℚ)] [] [0] 0 1 none = Except.error "IndexError" ∧
      calculate_stimulus_metrics [(1 : ℚ)] [] [0] 0 1 none = none :=
  ⟨rfl, (C5_no_exception_escapes [(1 : ℚ)] [] [0] 0 1 none).2 "IndexError" rfl⟩
